import Mathlib

/-!
Verification development for the `AsconCrypto` class of `src/lib/crypto/ascon-crypto.ts`
(repository `ngmisl/ascontastic`): a password-derived vault plus an authenticated
message envelope.

Modelling conventions (shallow embedding):
* Byte arrays (`Uint8Array`) are `List Nat`, with well-formedness `b < 256` stated
  where an argument matters.
* JavaScript strings are Lean `String`s; a message passed through `TextEncoder` /
  `TextDecoder` is modelled by its UTF-8 byte sequence.
* External primitives that the repository only calls (PBKDF2 via WebCrypto, AES-GCM
  via WebCrypto, the `ascon-js` cipher, `JSON.stringify`/`JSON.parse` of the state
  blob) are collected in an `Externals` record of plain functions; theorems assume
  of them only their documented contracts, pointwise where they are used.
* `localStorage` under the single key `ascon80pq_vault` is an
  `Option EncryptedStorageState`; `JSON` (de)serialization of that flat
  three-string record is faithful, so the record value stands for the stored string.
* Thrown `CryptoError`s become `Except CryptoErrorCode`; JavaScript exceptions that
  are not `CryptoError` (DOMException from `atob`, `TypeError`, WebCrypto
  `OperationError`, `ascon-js` errors) are the distinguished code `NATIVE_ERROR`.
* Randomness (`randomBytes`) is passed in as explicit arguments (the drawn bytes).
-/

/-- Bytes of a JavaScript `Uint8Array`; each entry is intended to be `< 256`. -/
abbrev Bytes := List Nat

/-- The `code` field of the repository's `CryptoError`, plus `NATIVE_ERROR` for
JavaScript exceptions that are not `CryptoError`s. -/
inductive CryptoErrorCode where
  | INVALID_KEY
  | ENCRYPTION_FAILED
  | DECRYPTION_FAILED
  | INVALID_INPUT
  | NATIVE_ERROR
deriving DecidableEq, Repr

/-- The `Contact` interface of `ascon-crypto.ts`. -/
structure Contact where
  id : String
  name : String
  keyHex : String
  added : String
deriving DecidableEq, Repr

/-- The `StorageState` interface: the plaintext vault state that gets serialized,
`asconKey` being the personal key hex-encoded (or `null`). -/
structure StorageState where
  asconKey : Option String
  contacts : List Contact
deriving DecidableEq, Repr

/-- The `EncryptedStorageState` record persisted under `ascon80pq_vault`:
`{salt: hex, iv: hex, data: base64}`. -/
structure EncryptedStorageState where
  salt : String
  iv : String
  data : String
deriving DecidableEq, Repr

/-! ### Base64 (`btoa`/`atob` as used by `arrayBufferToBase64`/`base64ToArrayBuffer`)

The repository converts bytes to a binary string and calls the platform's
`btoa`/`atob`. We model the composition directly on byte lists with standard
padded base64; `base64ToArrayBuffer` returns `none` where `atob` would throw. -/

/-- The base64 alphabet: the 26 uppercase letters, the 26 lowercase letters,
the 10 digits, then the two symbols. -/
def b64Alphabet : List Char :=
  (List.range 26).map (fun i => Char.ofNat (65 + i)) ++
  (List.range 26).map (fun i => Char.ofNat (97 + i)) ++
  (List.range 10).map (fun i => Char.ofNat (48 + i)) ++ ['+', '/']

/-- Character of a 6-bit group. -/
def charOfSextet (n : Nat) : Char := b64Alphabet.getD n 'A'

/-- 6-bit group of a base64 character, `none` for characters outside the alphabet. -/
def sextetOfChar (c : Char) : Option Nat := b64Alphabet.findIdx? (fun x => x == c)

/-- Base64-encode a byte list (three bytes to four characters, `=`-padded). -/
def b64EncodeList : Bytes → List Char
  | [] => []
  | [a] => [charOfSextet (a / 4), charOfSextet (a % 4 * 16), '=', '=']
  | [a, b] =>
      [charOfSextet (a / 4), charOfSextet (a % 4 * 16 + b / 16),
       charOfSextet (b % 16 * 4), '=']
  | a :: b :: d :: rest =>
      charOfSextet (a / 4) :: charOfSextet (a % 4 * 16 + b / 16) ::
      charOfSextet (b % 16 * 4 + d / 64) :: charOfSextet (d % 64) :: b64EncodeList rest

/-- Base64-decode a character list; `none` models `atob` throwing. -/
def b64DecodeList : List Char → Option Bytes
  | [] => some []
  | c1 :: c2 :: c3 :: c4 :: rest =>
    match sextetOfChar c1, sextetOfChar c2 with
    | some s1, some s2 =>
      if c3 = '=' then
        if c4 = '=' ∧ rest = [] then some [s1 * 4 + s2 / 16] else none
      else
        match sextetOfChar c3 with
        | some s3 =>
          if c4 = '=' then
            if rest = [] then some [s1 * 4 + s2 / 16, s2 % 16 * 16 + s3 / 4] else none
          else
            match sextetOfChar c4 with
            | some s4 =>
              match b64DecodeList rest with
              | some bs =>
                  some ((s1 * 4 + s2 / 16) :: (s2 % 16 * 16 + s3 / 4) :: (s3 % 4 * 64 + s4) :: bs)
              | none => none
            | none => none
        | none => none
    | _, _ => none
  | _ => none

/-- `arrayBufferToBase64` of `ascon-crypto.ts` (via `btoa`). -/
def arrayBufferToBase64 (buffer : Bytes) : String := ⟨b64EncodeList buffer⟩

/-- `base64ToArrayBuffer` of `ascon-crypto.ts` (via `atob`); `none` models a throw. -/
def base64ToArrayBuffer (base64 : String) : Option Bytes := b64DecodeList base64.data

theorem sextetOfChar_charOfSextet : ∀ n : Nat, n < 64 → sextetOfChar (charOfSextet n) = some n := by
  decide

theorem charOfSextet_ne_eq : ∀ n : Nat, n < 64 → charOfSextet n ≠ '=' := by
  decide

theorem b64DecodeList_encodeList :
    ∀ l : Bytes, (∀ b ∈ l, b < 256) → b64DecodeList (b64EncodeList l) = some l
  | [], _ => rfl
  | [a], h => by
      have ha : a < 256 := h a (by simp)
      have e1 := sextetOfChar_charOfSextet (a / 4) (by omega)
      have e2 := sextetOfChar_charOfSextet (a % 4 * 16) (by omega)
      simp only [b64EncodeList, b64DecodeList, e1, e2]
      simp
      all_goals omega
  | [a, b], h => by
      have ha : a < 256 := h a (by simp)
      have hb : b < 256 := h b (by simp)
      have e1 := sextetOfChar_charOfSextet (a / 4) (by omega)
      have e2 := sextetOfChar_charOfSextet (a % 4 * 16 + b / 16) (by omega)
      have e3 := sextetOfChar_charOfSextet (b % 16 * 4) (by omega)
      have n3 := charOfSextet_ne_eq (b % 16 * 4) (by omega)
      simp only [b64EncodeList, b64DecodeList, e1, e2, e3]
      simp [n3]
      all_goals omega
  | a :: b :: d :: rest, h => by
      have ha : a < 256 := h a (by simp)
      have hb : b < 256 := h b (by simp)
      have hd : d < 256 := h d (by simp)
      have e1 := sextetOfChar_charOfSextet (a / 4) (by omega)
      have e2 := sextetOfChar_charOfSextet (a % 4 * 16 + b / 16) (by omega)
      have e3 := sextetOfChar_charOfSextet (b % 16 * 4 + d / 64) (by omega)
      have e4 := sextetOfChar_charOfSextet (d % 64) (by omega)
      have n3 := charOfSextet_ne_eq (b % 16 * 4 + d / 64) (by omega)
      have n4 := charOfSextet_ne_eq (d % 64) (by omega)
      have ih := b64DecodeList_encodeList rest (fun x hx => h x (by simp [hx]))
      have h1 : a / 4 * 4 + (a % 4 * 16 + b / 16) / 16 = a := by omega
      have h2 : (a % 4 * 16 + b / 16) % 16 * 16 + (b % 16 * 4 + d / 64) / 4 = b := by omega
      have h3 : (b % 16 * 4 + d / 64) % 4 * 64 + d % 64 = d := by omega
      cases rest with
      | nil => simp [b64EncodeList, b64DecodeList, e1, e2, e3, e4, n3, n4, h1, h2, h3] at ih ⊢
      | cons e' rest' =>
          simp only [b64EncodeList] at ih ⊢
          simp [b64DecodeList, e1, e2, e3, e4, n3, n4, h1, h2, h3, ih]

/-- Decoding inverts encoding on genuine byte lists. -/
theorem base64_roundtrip (l : Bytes) (h : ∀ b ∈ l, b < 256) :
    base64ToArrayBuffer (arrayBufferToBase64 l) = some l :=
  b64DecodeList_encodeList l h

/-! ### Hex (`arrayBufferToHex` / `hexToArrayBuffer`) -/

/-- Lowercase hex digit of a value `< 16` (as produced by `toString(16)`):
`0`-`9` then `a`-`f`. -/
def hexDigitChar (n : Nat) : Char :=
  if n < 10 then Char.ofNat (48 + n) else Char.ofNat (87 + n)

/-- Value of one hex digit as `parseInt(·, 16)` reads it, `none` if not a hex digit. -/
def hexDigitVal (c : Char) : Option Nat :=
  if '0' ≤ c ∧ c ≤ '9' then some (c.toNat - '0'.toNat)
  else if 'a' ≤ c ∧ c ≤ 'f' then some (c.toNat - 'a'.toNat + 10)
  else if 'A' ≤ c ∧ c ≤ 'F' then some (c.toNat - 'A'.toNat + 10)
  else none

/-- `b.toString(16).padStart(2, '0')` for a byte `b < 256`. -/
def byteToHex (b : Nat) : List Char := [hexDigitChar (b / 16), hexDigitChar (b % 16)]

/-- `arrayBufferToHex` of `ascon-crypto.ts`. -/
def arrayBufferToHex (buffer : Bytes) : String := ⟨(buffer.map byteToHex).flatten⟩

/-- `parseInt(pair, 16)` on a two-character chunk, with JavaScript semantics:
`parseInt` reads the longest hex prefix, yields `NaN` when the first character is
not a hex digit, and `Uint8Array` coerces `NaN` to `0`. -/
def hexPairVal (c1 c2 : Char) : Nat :=
  match hexDigitVal c1 with
  | none => 0
  | some d1 =>
    match hexDigitVal c2 with
    | none => d1
    | some d2 => d1 * 16 + d2

/-- The `hex.match(/.{1,2}/g)` chunking followed by `parseInt` on each chunk. -/
def hexPairsVal : List Char → Bytes
  | [] => []
  | [c] => match hexDigitVal c with | none => 0 :: [] | some d => d :: []
  | c1 :: c2 :: rest => hexPairVal c1 c2 :: hexPairsVal rest

/-- `hexToArrayBuffer` of `ascon-crypto.ts`: throws `INVALID_INPUT` on odd length,
and on the empty string (where `"".match(/.{1,2}/g)` is `null`). -/
def hexToArrayBuffer (hex : String) : Except CryptoErrorCode Bytes :=
  if hex.length % 2 ≠ 0 then .error .INVALID_INPUT
  else if hex.length = 0 then .error .INVALID_INPUT
  else .ok (hexPairsVal hex.data)

theorem hexDigitVal_hexDigitChar : ∀ n : Nat, n < 16 → hexDigitVal (hexDigitChar n) = some n := by
  decide

theorem hexPairsVal_map_byteToHex :
    ∀ l : Bytes, (∀ b ∈ l, b < 256) → hexPairsVal ((l.map byteToHex).flatten) = l
  | [], _ => rfl
  | a :: rest, h => by
      have ha : a < 256 := h a (by simp)
      have e1 := hexDigitVal_hexDigitChar (a / 16) (by omega)
      have e2 := hexDigitVal_hexDigitChar (a % 16) (by omega)
      have ih := hexPairsVal_map_byteToHex rest (fun x hx => h x (by simp [hx]))
      simp only [List.map_cons, List.flatten_cons, byteToHex, List.cons_append, List.nil_append]
      have hshape : ∀ t : List Char,
          hexPairsVal (hexDigitChar (a / 16) :: hexDigitChar (a % 16) :: t) =
            hexPairVal (hexDigitChar (a / 16)) (hexDigitChar (a % 16)) :: hexPairsVal t :=
        fun t => rfl
      rw [hshape, ih]
      simp only [hexPairVal, e1, e2]
      have : a / 16 * 16 + a % 16 = a := by omega
      rw [this]

theorem arrayBufferToHex_length (l : Bytes) : (arrayBufferToHex l).length = 2 * l.length := by
  induction l with
  | nil => rfl
  | cons a rest ih =>
      simp only [arrayBufferToHex, String.length] at ih ⊢
      simp only [List.map_cons, List.flatten_cons, byteToHex, List.cons_append, List.nil_append,
        List.length_cons, List.length_append] at ih ⊢
      omega

/-- Hex decoding inverts hex encoding on nonempty genuine byte lists. -/
theorem hex_roundtrip (l : Bytes) (hne : l ≠ []) (h : ∀ b ∈ l, b < 256) :
    hexToArrayBuffer (arrayBufferToHex l) = .ok l := by
  have hlen : (arrayBufferToHex l).length = 2 * l.length := arrayBufferToHex_length l
  have hpos : l.length ≠ 0 := fun hc => hne (List.length_eq_zero.mp hc)
  unfold hexToArrayBuffer
  rw [hlen]
  rw [if_neg (by omega), if_neg (by omega)]
  exact congrArg Except.ok (hexPairsVal_map_byteToHex l h)

/-! ### External primitives

The repository calls WebCrypto (PBKDF2, AES-GCM), the `ascon-js` AEAD, and
`JSON.stringify`/`JSON.parse` on the `StorageState` blob. They are outside the
repository; theorems assume only their documented contracts, as hypotheses at
the points where they are used. -/

/-- The external primitives, as plain deterministic functions. `none` results of
the decryption functions model a thrown authentication/parse failure. -/
structure Externals where
  pbkdf2 : String → Bytes → Nat → Nat → Bytes
  aesGcmEncrypt : Bytes → Bytes → Bytes → Bytes
  aesGcmDecrypt : Bytes → Bytes → Bytes → Option Bytes
  stringifyState : StorageState → Bytes
  parseState : Bytes → Option StorageState
  asconEncrypt : Bytes → Bytes → Bytes → Bytes
  asconDecrypt : Bytes → Bytes → Bytes → Option Bytes

/-! ### The `AsconCrypto` mutable fields and operations -/

/-- The four private fields of the `AsconCrypto` class. The WebCrypto
`CryptoKey` handle `masterKey` is modelled by the raw derived key bytes. -/
structure CryptoState where
  asconKey : Option Bytes
  contacts : List Contact
  masterKey : Option Bytes
  masterKeySalt : Option Bytes
deriving DecidableEq, Repr

/-- The field values after `clearAll()` (which also removes the stored record). -/
def emptyState : CryptoState :=
  { asconKey := none, contacts := [], masterKey := none, masterKeySalt := none }

/-- `hasVault()`: a persisted record exists. -/
def hasVault (storage : Option EncryptedStorageState) : Bool := storage.isSome

/-- `isLocked()`: a vault exists but no master key is in memory. -/
def isLocked (st : CryptoState) (storage : Option EncryptedStorageState) : Bool :=
  hasVault storage && st.masterKey == none

/-- `encrypt(key, plaintext)`: fresh 16-byte nonce (passed in), Ascon-80pq
ciphertext, transmitted as `base64(nonce ++ ciphertext)`. The plaintext string is
modelled by its UTF-8 bytes. -/
def encrypt (E : Externals) (key : Bytes) (nonce : Bytes) (plaintext : Bytes) : String :=
  arrayBufferToBase64 (nonce ++ E.asconEncrypt key nonce plaintext)

/-- The body of `decrypt` up to the enclosing try/catch: base64-decode, check the
32-byte minimum, split nonce/ciphertext, Ascon-80pq decrypt. -/
def decryptBody (E : Externals) (key : Bytes) (encryptedData : String) :
    Except CryptoErrorCode Bytes :=
  match base64ToArrayBuffer encryptedData with
  | none => .error .NATIVE_ERROR
  | some data =>
    if data.length < 32 then .error .INVALID_INPUT
    else
      match E.asconDecrypt key (data.take 16) (data.drop 16) with
      | none => .error .NATIVE_ERROR
      | some pt => .ok pt

/-- `decrypt(key, encryptedData)`: the whole body runs inside `try { ... }`, and
the `catch` rethrows every error as a `DECRYPTION_FAILED` `CryptoError`. -/
def decrypt (E : Externals) (key : Bytes) (encryptedData : String) :
    Except CryptoErrorCode Bytes :=
  match decryptBody E key encryptedData with
  | .ok pt => .ok pt
  | .error _ => .error .DECRYPTION_FAILED

/-- Result of `calculateMessageSize`. -/
inductive SizeStatus where
  | ok
  | warning
  | error
deriving DecidableEq, Repr

/-- Result record of `calculateMessageSize`. -/
structure SizeResult where
  messageBytes : Nat
  encodedBytes : Nat
  status : SizeStatus
deriving DecidableEq, Repr

/-- `calculateMessageSize(message)`: the message is modelled by its UTF-8 bytes;
`Math.ceil((messageBytes + 32) * 4 / 3)` is the exact natural ceiling. -/
def calculateMessageSize (message : Bytes) : SizeResult :=
  let messageBytes := message.length
  let totalSize := ((messageBytes + 32) * 4 + 2) / 3
  let status : SizeStatus :=
    if totalSize ≤ 200 then .ok else if totalSize ≤ 237 then .warning else .error
  { messageBytes := messageBytes, encodedBytes := totalSize, status := status }

/-- `saveState()` up to the `localStorage.setItem` call: requires a master key
(else throws `ENCRYPTION_FAILED`), hex-encodes the personal key into a
`StorageState`, encrypts its serialization under the master key with the freshly
drawn 12-byte `iv`, and produces the new persisted record. The non-null
assertion `this.masterKeySalt!` would raise a `TypeError` if the salt were
absent (`NATIVE_ERROR`); `setItem` itself is modelled as always succeeding. -/
def saveState (E : Externals) (st : CryptoState) (iv : Bytes) :
    Except CryptoErrorCode EncryptedStorageState :=
  match st.masterKey with
  | none => .error .ENCRYPTION_FAILED
  | some mk =>
    match st.masterKeySalt with
    | none => .error .NATIVE_ERROR
    | some salt =>
      let state : StorageState :=
        { asconKey := st.asconKey.map arrayBufferToHex, contacts := st.contacts }
      let ct := E.aesGcmEncrypt mk iv (E.stringifyState state)
      .ok { salt := arrayBufferToHex salt, iv := arrayBufferToHex iv,
            data := arrayBufferToBase64 ct }

/-- `saveState()` as a step on the persisted record: an error leaves the record
as it was. -/
def saveOp (E : Externals) (st : CryptoState) (storage : Option EncryptedStorageState)
    (iv : Bytes) : Except CryptoErrorCode Unit × Option EncryptedStorageState :=
  match saveState E st iv with
  | .ok r => (.ok (), some r)
  | .error e => (.error e, storage)

/-- The regex test `/^[0-9a-fA-F]+$/.test(keyHex)`. -/
def isHexString (s : String) : Bool :=
  s.length != 0 && s.data.all (fun c => (hexDigitVal c).isSome)

/-- JavaScript `String.prototype.toLowerCase`, modelled character-wise (the
contact names under scrutiny are ASCII). -/
def jsToLower (s : String) : String := ⟨s.data.map Char.toLower⟩

/-- JavaScript `String.prototype.trim`: strip leading and trailing whitespace. -/
def jsTrim (s : String) : String :=
  ⟨((s.data.dropWhile Char.isWhitespace).reverse.dropWhile Char.isWhitespace).reverse⟩

/-- `addContact(name, keyHex)`: validation, duplicate-name check, push, then
`saveState`. `now` is `Date.now().toString()` and `nowIso` is
`new Date().toISOString()`. The pushed contact survives in memory even when
`saveState` throws, so the state is returned alongside the `Except`. -/
def addContact (E : Externals) (st : CryptoState) (storage : Option EncryptedStorageState)
    (iv : Bytes) (now nowIso : String) (name keyHex : String) :
    Except CryptoErrorCode Contact × CryptoState × Option EncryptedStorageState :=
  if jsTrim name = "" then (.error .INVALID_INPUT, st, storage)
  else if keyHex.length ≠ 40 ∨ isHexString keyHex = false then
    (.error .INVALID_KEY, st, storage)
  else if st.contacts.any (fun c => jsToLower c.name == jsToLower name) then
    (.error .INVALID_INPUT, st, storage)
  else
    let contact : Contact := { id := now, name := jsTrim name, keyHex := keyHex, added := nowIso }
    let st1 := { st with contacts := st.contacts ++ [contact] }
    match saveState E st1 iv with
    | .ok r => (.ok contact, st1, some r)
    | .error e => (.error e, st1, storage)

/-- Parse outcome of `JSON.parse(jsonData)` in `importKey`, reduced to what the
code inspects: a parse failure, or whether `data.ascon80pqKey` is a (truthy)
string. A present non-string field or an absent field both take the
`noKeyField` path; the empty string is falsy and is separated inside
`importKey` itself. -/
inductive KeyImportDoc where
  | parseError
  | noKeyField
  | keyField (s : String)
deriving DecidableEq, Repr

/-- `importKey(jsonData)`: everything runs in `try { ... } catch { return false }`,
so it always returns a boolean. The personal key is replaced *before*
`saveState`, so a `saveState` throw still leaves the new key in memory. -/
def importKey (E : Externals) (st : CryptoState) (storage : Option EncryptedStorageState)
    (iv : Bytes) (doc : KeyImportDoc) :
    Bool × CryptoState × Option EncryptedStorageState :=
  match doc with
  | .parseError => (false, st, storage)
  | .noKeyField => (false, st, storage)
  | .keyField s =>
    if s = "" then (false, st, storage)
    else
      match hexToArrayBuffer s with
      | .error _ => (false, st, storage)
      | .ok k =>
        let st1 := { st with asconKey := some k }
        match saveState E st1 iv with
        | .ok r => (true, st1, some r)
        | .error _ => (false, st1, storage)

/-- One candidate element of an imported contacts document; each field is
`none` when absent or not a truthy value of the expected kind. -/
structure ImportCandidate where
  name : Option String
  keyHex : Option String
  added : Option String
deriving DecidableEq, Repr

/-- JavaScript truthiness of an optional string field: present and nonempty. -/
def truthy : Option String → Option String
  | some s => if s = "" then none else some s
  | none => none

/-- Parse outcome of `JSON.parse(jsonData)` in `importContacts`: a parse failure,
a JSON document whose `contacts` field is not an array, or the candidate list. -/
inductive ImportDoc where
  | parseError
  | noContactsArray
  | contactsArr (l : List ImportCandidate)
deriving DecidableEq, Repr

/-- The `for (const contact of data.contacts)` loop of `importContacts`:
candidates lacking a truthy `name` or `keyHex` are skipped silently; a
case-insensitive name match or an exact `keyHex` match against the current
(growing) list counts as a duplicate; otherwise the candidate is appended with
id `Date.now().toString() + imported` (`now`) and
`added: contact.added || new Date().toISOString()` (`nowIso`). -/
def importLoop (now nowIso : String) :
    List Contact → Nat → Nat → List ImportCandidate → Nat × Nat × List Contact
  | cs, imported, duplicates, [] => (imported, duplicates, cs)
  | cs, imported, duplicates, c :: rest =>
    match truthy c.name, truthy c.keyHex with
    | some n, some k =>
      if cs.any (fun e => jsToLower e.name == jsToLower n) || cs.any (fun e => e.keyHex == k) then
        importLoop now nowIso cs imported (duplicates + 1) rest
      else
        importLoop now nowIso
          (cs ++ [{ id := now ++ toString imported, name := n, keyHex := k,
                    added := (truthy c.added).getD nowIso }])
          (imported + 1) duplicates rest
    | _, _ => importLoop now nowIso cs imported duplicates rest

/-- `importContacts(jsonData)`: a JSON parse failure is caught and rethrown as
`INVALID_INPUT`; a document without a `contacts` array silently yields
`{imported: 0, duplicates: 0}`; otherwise the loop runs and `saveState` is
called once iff anything was imported — a `saveState` throw is also caught and
surfaced as `INVALID_INPUT`, with the pushed contacts kept in memory. -/
def importContacts (E : Externals) (st : CryptoState) (storage : Option EncryptedStorageState)
    (iv : Bytes) (now nowIso : String) (doc : ImportDoc) :
    Except CryptoErrorCode (Nat × Nat) × CryptoState × Option EncryptedStorageState :=
  match doc with
  | .parseError => (.error .INVALID_INPUT, st, storage)
  | .noContactsArray => (.ok (0, 0), st, storage)
  | .contactsArr l =>
    match importLoop now nowIso st.contacts 0 0 l with
    | (imported, duplicates, cs) =>
      let st1 := { st with contacts := cs }
      if imported > 0 then
        match saveState E st1 iv with
        | .ok r => (.ok (imported, duplicates), st1, some r)
        | .error _ => (.error .INVALID_INPUT, st1, storage)
      else (.ok (imported, duplicates), st1, storage)

/-- `loadState()`: decrypt and decode the persisted record under the in-memory
master key. Any exception inside the `try` (bad hex, `atob` failure, AES-GCM
authentication failure, JSON parse failure) hits the `catch`, which calls
`clearAll()` — wiping the in-memory fields *and deleting the persisted
record* — and returns false. `state.asconKey` is only hex-decoded when truthy. -/
def loadState (E : Externals) (st : CryptoState) (storage : Option EncryptedStorageState) :
    Bool × CryptoState × Option EncryptedStorageState :=
  match st.masterKey with
  | none => (false, st, storage)
  | some mk =>
    match storage with
    | none => (false, st, storage)
    | some vault =>
      match hexToArrayBuffer vault.iv with
      | .error _ => (false, emptyState, none)
      | .ok iv =>
        match base64ToArrayBuffer vault.data with
        | none => (false, emptyState, none)
        | some data =>
          match E.aesGcmDecrypt mk iv data with
          | none => (false, emptyState, none)
          | some pt =>
            match E.parseState pt with
            | none => (false, emptyState, none)
            | some state =>
              match truthy state.asconKey with
              | none => (true, { st with asconKey := none, contacts := state.contacts }, storage)
              | some s =>
                match hexToArrayBuffer s with
                | .error _ => (false, emptyState, none)
                | .ok k =>
                    (true, { st with asconKey := some k, contacts := state.contacts }, storage)

/-- `unlock(password)`: generate a fresh 16-byte salt when none is loaded,
derive the master key (PBKDF2-SHA256, 300000 iterations, 256-bit AES-GCM key),
store it, then decrypt an existing record via `loadState`; with no record the
vault is created unlocked-empty. Key derivation itself fails only on a
primitive error and is modelled as total. -/
def unlock (E : Externals) (st : CryptoState) (storage : Option EncryptedStorageState)
    (freshSalt : Bytes) (password : String) :
    Bool × CryptoState × Option EncryptedStorageState :=
  let salt := st.masterKeySalt.getD freshSalt
  let mk := E.pbkdf2 password salt 300000 256
  let st1 := { st with masterKeySalt := some salt, masterKey := some mk }
  match storage with
  | some _ => loadState E st1 storage
  | none => (true, st1, storage)

/-- The constructor's `loadStateFromStorage()`: on a stored record it only
decodes and remembers the salt; a hex failure there is caught and answered with
`clearAll()`, which removes the record. -/
def loadStateFromStorage (storage : Option EncryptedStorageState) :
    CryptoState × Option EncryptedStorageState :=
  match storage with
  | none => (emptyState, storage)
  | some vault =>
    match hexToArrayBuffer vault.salt with
    | .ok s => ({ emptyState with masterKeySalt := some s }, storage)
    | .error _ => (emptyState, none)

/-! ### Concrete instantiations used by closed theorems and witnesses -/

/-- A trivially correct instantiation of the external primitives, used to
evaluate the repository code on concrete inputs. -/
def zeroExternals : Externals :=
  { pbkdf2 := fun _ salt _ _ => salt,
    aesGcmEncrypt := fun _ _ pt => pt,
    aesGcmDecrypt := fun _ _ ct => some ct,
    stringifyState := fun _ => [0],
    parseState := fun _ => none,
    asconEncrypt := fun _ _ pt => pt ++ List.replicate 16 0,
    asconDecrypt := fun _ _ ct => some (ct.take (ct.length - 16)) }

/-- Externals whose AES-GCM decryption always fails authentication, standing for
a master key derived from a wrong password. -/
def wrongKeyExternals : Externals :=
  { zeroExternals with aesGcmDecrypt := fun _ _ _ => none }

/-- Externals whose Ascon decryption always fails its tag check. -/
def badTagExternals : Externals :=
  { zeroExternals with asconDecrypt := fun _ _ _ => none }

/-- A well-formed persisted vault record. -/
def vaultRecord0 : EncryptedStorageState :=
  { salt := "0a0b", iv := "0c0d", data := arrayBufferToBase64 [1, 2, 3] }

/-! ### C4 — Meshtastic size classification -/

/-- C4: for every message, `calculateMessageSize` reports the UTF-8 byte count,
the base64-expanded size `ceil((messageBytes + 32) * 4 / 3)`, and the
`ok`/`warning`/`error` classification at the 200- and 237-byte thresholds;
concretely the empty message gives 43/`ok` and a 150-byte message 243/`error`. -/
theorem calculateMessageSize_spec (message : Bytes) :
    (calculateMessageSize message).messageBytes = message.length ∧
    (calculateMessageSize message).encodedBytes = ((message.length + 32) * 4 + 2) / 3 ∧
    ((calculateMessageSize message).status = .ok ↔
      (calculateMessageSize message).encodedBytes ≤ 200) ∧
    ((calculateMessageSize message).status = .warning ↔
      200 < (calculateMessageSize message).encodedBytes ∧
        (calculateMessageSize message).encodedBytes ≤ 237) ∧
    ((calculateMessageSize message).status = .error ↔
      237 < (calculateMessageSize message).encodedBytes) ∧
    calculateMessageSize [] = { messageBytes := 0, encodedBytes := 43, status := .ok } ∧
    calculateMessageSize (List.replicate 150 97) =
      { messageBytes := 150, encodedBytes := 243, status := .error } := by
  refine ⟨rfl, rfl, ?_, ?_, ?_, by decide,
    by simp only [calculateMessageSize, List.length_replicate]; rfl⟩ <;>
  · simp only [calculateMessageSize]
    split <;> (try split) <;> simp_all <;> omega

/-! ### C1 — wrong-password unlock -/

/-- C1 (refuting the claim): on an existing vault, `unlock` with a password whose
derived master key fails to decrypt the record does return false and discard the
master key, but `loadState`'s catch calls `clearAll()`, which *deletes the
persisted record*: afterwards the storage is `none` and `hasVault()` is false,
instead of the record surviving byte-for-byte. -/
theorem unlock_wrong_password_destroys_record :
    unlock wrongKeyExternals (loadStateFromStorage (some vaultRecord0)).1
        (some vaultRecord0) [] "wrong password" =
      (false, emptyState, none) ∧
    hasVault (unlock wrongKeyExternals (loadStateFromStorage (some vaultRecord0)).1
        (some vaultRecord0) [] "wrong password").2.2 = false ∧
    some vaultRecord0 ≠ (none : Option EncryptedStorageState) := by
  refine ⟨by decide, by decide, by decide⟩

/-! ### C2 — case-insensitive name uniqueness invariant -/

/-- A fixed 40-character hex key. -/
def keyHexA : String := "00112233445566778899aabbccddeeff00112233"

/-- A second, distinct 40-character hex key. -/
def keyHexB : String := "ffeeddccbbaa99887766554433221100ffeeddcc"

/-- An unlocked vault state already holding a contact named "Bob". -/
def bobState : CryptoState :=
  { asconKey := none,
    contacts := [{ id := "1", name := "Bob", keyHex := keyHexA, added := "t0" }],
    masterKey := some [7],
    masterKeySalt := some [9] }

/-- C2 (refuting the claim): `addContact` lower-cases but does not trim the name
before the duplicate check, while it stores the trimmed name. Adding
"Bob " (trailing space) to a vault that already holds "Bob" therefore succeeds
and leaves two contacts both literally named "Bob" — the trimmed,
case-insensitive uniqueness invariant is broken by a state-mutating operation. -/
theorem addContact_trailing_space_breaks_invariant :
    (addContact zeroExternals bobState (some vaultRecord0) [1] "2" "t1" "Bob " keyHexB).1 =
      .ok { id := "2", name := "Bob", keyHex := keyHexB, added := "t1" } ∧
    ((addContact zeroExternals bobState (some vaultRecord0) [1] "2" "t1" "Bob " keyHexB).2.1.contacts.map
        Contact.name) = ["Bob", "Bob"] ∧
    jsToLower (jsTrim "Bob ") = jsToLower (jsTrim "Bob") := by
  refine ⟨rfl, rfl, rfl⟩

/-! ### C3 — decrypt error codes -/

/-- C3 (refuting the claim): the `INVALID_INPUT` throw for a too-short input sits
*inside* `decrypt`'s try block, so the catch rewraps it: on the empty string
(which decodes to 0 bytes, below the 32-byte minimum) `decrypt` surfaces
`DECRYPTION_FAILED`, not `INVALID_INPUT`. -/
theorem decrypt_short_input_not_invalid_input :
    base64ToArrayBuffer "" = some [] ∧
    decrypt zeroExternals [] "" = .error .DECRYPTION_FAILED ∧
    CryptoErrorCode.DECRYPTION_FAILED ≠ CryptoErrorCode.INVALID_INPUT := by
  refine ⟨rfl, rfl, by decide⟩

/-- C3 (amended): every failing `decrypt` surfaces `DECRYPTION_FAILED` — both an
input whose decoded length is below 32 bytes (nonce 16 + tag 16) and an input of
sufficient length whose Ascon tag check fails. -/
theorem decrypt_failures_surface_decryption_failed (E : Externals) (key : Bytes)
    (encryptedData : String) (data : Bytes)
    (hdec : base64ToArrayBuffer encryptedData = some data) :
    (data.length < 32 → decrypt E key encryptedData = .error .DECRYPTION_FAILED) ∧
    (32 ≤ data.length →
      E.asconDecrypt key (data.take 16) (data.drop 16) = none →
      decrypt E key encryptedData = .error .DECRYPTION_FAILED) := by
  constructor
  · intro hlt
    simp only [decrypt, decryptBody, hdec, if_pos hlt]
  · intro hge hfail
    simp only [decrypt, decryptBody, hdec, if_neg (by omega : ¬ data.length < 32), hfail]

/-- Witness for the amended C3 theorem at concrete inputs: the empty envelope,
and a 32-byte envelope whose tag check fails. -/
theorem decrypt_failures_surface_decryption_failed_witness :
    decrypt zeroExternals [] "" = .error .DECRYPTION_FAILED ∧
    decrypt badTagExternals []
        (arrayBufferToBase64 (List.replicate 32 0)) = .error .DECRYPTION_FAILED := by
  constructor
  · exact (decrypt_failures_surface_decryption_failed zeroExternals [] "" [] rfl).1 (by decide)
  · exact (decrypt_failures_surface_decryption_failed badTagExternals []
      (arrayBufferToBase64 (List.replicate 32 0)) (List.replicate 32 0)
      (base64_roundtrip _ (by decide))).2 (by decide) rfl

/-! ### C5 — envelope round-trip -/

/-- C5: for every 20-byte key and message, decrypting the sealed envelope with
the same key returns the message, provided the Ascon primitive honours its AEAD
contract at this point (ciphertext is plaintext plus a 16-byte tag, bytes are
bytes, and decryption inverts encryption under the same key and nonce). -/
theorem encrypt_decrypt_roundtrip (E : Externals) (key nonce plaintext : Bytes)
    (hkey : key.length = 20)
    (hnonce : nonce.length = 16) (hnb : ∀ b ∈ nonce, b < 256)
    (hctb : ∀ b ∈ E.asconEncrypt key nonce plaintext, b < 256)
    (hctlen : (E.asconEncrypt key nonce plaintext).length = plaintext.length + 16)
    (hdec : E.asconDecrypt key nonce (E.asconEncrypt key nonce plaintext) = some plaintext) :
    decrypt E key (encrypt E key nonce plaintext) = .ok plaintext := by
  have hall : ∀ b ∈ nonce ++ E.asconEncrypt key nonce plaintext, b < 256 := by
    intro b hb
    rcases List.mem_append.mp hb with h | h
    · exact hnb b h
    · exact hctb b h
  have hrt := base64_roundtrip (nonce ++ E.asconEncrypt key nonce plaintext) hall
  have hlen : (nonce ++ E.asconEncrypt key nonce plaintext).length = plaintext.length + 32 := by
    simp [List.length_append, hnonce, hctlen]
    omega
  have htake : (nonce ++ E.asconEncrypt key nonce plaintext).take 16 = nonce := by
    rw [← hnonce]; simp
  have hdrop : (nonce ++ E.asconEncrypt key nonce plaintext).drop 16 =
      E.asconEncrypt key nonce plaintext := by
    rw [← hnonce]; simp
  simp only [decrypt, decryptBody, encrypt, hrt, hlen]
  rw [if_neg (by omega)]
  rw [htake, hdrop, hdec]

/-- A 20-byte key for the round-trip witness. -/
def rtKey : Bytes := List.replicate 20 1

/-- A 16-byte nonce for the round-trip witness. -/
def rtNonce : Bytes := List.replicate 16 2

/-- Witness for C5: the round-trip evaluated on a concrete key, nonce and
message under a concrete AEAD instance. -/
theorem encrypt_decrypt_roundtrip_witness :
    decrypt zeroExternals rtKey (encrypt zeroExternals rtKey rtNonce [104, 105]) =
      .ok [104, 105] :=
  encrypt_decrypt_roundtrip zeroExternals rtKey rtNonce [104, 105]
    (by decide) (by decide) (by decide) (by decide) (by decide) (by decide)

/-! ### C6 — save / fresh-instance unlock round-trip -/

theorem arrayBufferToHex_ne_empty (l : Bytes) (h : l ≠ []) : arrayBufferToHex l ≠ "" := by
  cases l with
  | nil => exact absurd rfl h
  | cons a rest =>
      intro hc
      have hdata : (arrayBufferToHex (a :: rest)).data = ("" : String).data :=
        congrArg String.data hc
      simp [arrayBufferToHex, byteToHex] at hdata

/-- C6: after `saveState()` of an unlocked vault, a fresh instance (constructor
reading the same persisted record) that unlocks with the correct password
reproduces the identical `VaultState`: the same personal key, the same contacts,
the same master key and salt. External-primitive hypotheses: AES-GCM decryption
inverts encryption at the saved blob, and JSON parsing inverts serialization at
the saved `StorageState`. -/
theorem save_unlock_roundtrip (E : Externals) (key : Option Bytes) (cs : List Contact)
    (pw : String) (salt iv freshSalt : Bytes) (mk : Bytes) (st : CryptoState)
    (hmk : mk = E.pbkdf2 pw salt 300000 256)
    (hst : st = { asconKey := key, contacts := cs, masterKey := some mk,
                  masterKeySalt := some salt })
    (hsaltne : salt ≠ []) (hsaltb : ∀ b ∈ salt, b < 256)
    (hivne : iv ≠ []) (hivb : ∀ b ∈ iv, b < 256)
    (hkey : ∀ k, key = some k → (k ≠ [] ∧ ∀ b ∈ k, b < 256))
    (hctb : ∀ b ∈ E.aesGcmEncrypt mk iv
        (E.stringifyState { asconKey := key.map arrayBufferToHex, contacts := cs }), b < 256)
    (hjson : E.parseState
        (E.stringifyState { asconKey := key.map arrayBufferToHex, contacts := cs }) =
      some { asconKey := key.map arrayBufferToHex, contacts := cs })
    (haes : E.aesGcmDecrypt mk iv (E.aesGcmEncrypt mk iv
        (E.stringifyState { asconKey := key.map arrayBufferToHex, contacts := cs })) =
      some (E.stringifyState { asconKey := key.map arrayBufferToHex, contacts := cs })) :
    ∃ r, saveState E st iv = .ok r ∧
      unlock E (loadStateFromStorage (some r)).1 (some r) freshSalt pw = (true, st, some r) := by
  subst hmk
  subst hst
  refine ⟨_, rfl, ?_⟩
  have hsalt := hex_roundtrip salt hsaltne hsaltb
  have hivr := hex_roundtrip iv hivne hivb
  have hct := base64_roundtrip _ hctb
  simp only [loadStateFromStorage, hsalt]
  simp only [unlock, Option.getD]
  simp only [loadState, hivr, hct, haes, hjson]
  cases key with
  | none => simp [truthy]
  | some k =>
      obtain ⟨hkne, hkb⟩ := hkey k rfl
      have hkhex := hex_roundtrip k hkne hkb
      have hkne' := arrayBufferToHex_ne_empty k hkne
      simp [truthy, hkne', hkhex]

/-- The personal key used by the C6 witness. -/
def rtPersonal : Bytes := [4, 5]

/-- The contact list used by the C6 witness. -/
def rtContacts : List Contact :=
  [{ id := "c1", name := "Alice", keyHex := "00112233445566778899aabbccddeeff00112233",
     added := "t" }]

/-- The serialized `StorageState` of the C6 witness. -/
def rtStorageState : StorageState :=
  { asconKey := some (arrayBufferToHex rtPersonal), contacts := rtContacts }

/-- Concrete externals satisfying the C6 contract hypotheses at the witness point. -/
def roundtripExternals : Externals :=
  { pbkdf2 := fun _ salt _ _ => 7 :: salt,
    aesGcmEncrypt := fun _ _ pt => pt,
    aesGcmDecrypt := fun _ _ ct => some ct,
    stringifyState := fun _ => [1],
    parseState := fun _ => some rtStorageState,
    asconEncrypt := fun _ _ pt => pt ++ List.replicate 16 0,
    asconDecrypt := fun _ _ ct => some (ct.take (ct.length - 16)) }

/-- Witness for C6 at a concrete vault: personal key `[4, 5]`, one contact,
salt `[1, 2]`, save-nonce `[3]`. -/
theorem save_unlock_roundtrip_witness :
    ∃ r, saveState roundtripExternals
        { asconKey := some rtPersonal, contacts := rtContacts,
          masterKey := some (roundtripExternals.pbkdf2 "pw" [1, 2] 300000 256),
          masterKeySalt := some [1, 2] } [3] = .ok r ∧
      unlock roundtripExternals (loadStateFromStorage (some r)).1 (some r) [] "pw" =
        (true,
         { asconKey := some rtPersonal, contacts := rtContacts,
           masterKey := some (roundtripExternals.pbkdf2 "pw" [1, 2] 300000 256),
           masterKeySalt := some [1, 2] }, some r) :=
  save_unlock_roundtrip roundtripExternals (some rtPersonal) rtContacts "pw" [1, 2] [3] []
    (roundtripExternals.pbkdf2 "pw" [1, 2] 300000 256) _ rfl rfl
    (by decide) (by decide) (by decide) (by decide)
    (fun k hk => by cases hk; exact ⟨by decide, by decide⟩)
    (by decide) (by decide) (by decide)

/-! ### C8 — addContact validation -/

/-- An unlocked vault state with no contacts yet. -/
def unlockedEmptyState : CryptoState :=
  { asconKey := none, contacts := [], masterKey := some [7], masterKeySalt := some [9] }

/-- The state and record after adding "Bob" to the empty unlocked vault. -/
def afterBob : Except CryptoErrorCode Contact × CryptoState × Option EncryptedStorageState :=
  addContact zeroExternals unlockedEmptyState (some vaultRecord0) [1] "1" "t0" "Bob" keyHexA

/-- C8: `addContact` rejects a name that is empty after trimming with
`INVALID_INPUT`, rejects a key that is not exactly 40 hex characters with
`INVALID_KEY`, rejects a name whose lower-cased form equals an existing
contact's lower-cased name with `INVALID_INPUT`, and in each case the state and
record are untouched; concretely, adding "Bob" and then "BOB" fails the second
call with `INVALID_INPUT` and leaves one contact. -/
theorem addContact_validation (E : Externals) (st : CryptoState)
    (storage : Option EncryptedStorageState) (iv : Bytes) (now nowIso name keyHex : String) :
    (jsTrim name = "" →
      addContact E st storage iv now nowIso name keyHex = (.error .INVALID_INPUT, st, storage)) ∧
    (jsTrim name ≠ "" → (keyHex.length ≠ 40 ∨ isHexString keyHex = false) →
      addContact E st storage iv now nowIso name keyHex = (.error .INVALID_KEY, st, storage)) ∧
    (jsTrim name ≠ "" → keyHex.length = 40 → isHexString keyHex = true →
      st.contacts.any (fun c => jsToLower c.name == jsToLower name) = true →
      addContact E st storage iv now nowIso name keyHex = (.error .INVALID_INPUT, st, storage)) ∧
    (afterBob.1 = .ok { id := "1", name := "Bob", keyHex := keyHexA, added := "t0" } ∧
     addContact zeroExternals afterBob.2.1 afterBob.2.2 [1] "2" "t1" "BOB" keyHexB =
       (.error .INVALID_INPUT, afterBob.2.1, afterBob.2.2) ∧
     afterBob.2.1.contacts.length = 1) := by
  refine ⟨?_, ?_, ?_, rfl, rfl, rfl⟩
  · intro h
    simp [addContact, h]
  · intro hn hk
    simp only [addContact]
    rw [if_neg hn, if_pos hk]
  · intro hn h40 hhex hdup
    simp only [addContact]
    rw [if_neg hn, if_neg (by simp [h40, hhex]), if_pos hdup]

/-- Witness for C8's conditional clauses at concrete inputs: a whitespace-only
name, a short key, and a duplicate name. -/
theorem addContact_validation_witness :
    addContact zeroExternals unlockedEmptyState (some vaultRecord0) [1] "1" "t0" " " keyHexA =
      (.error .INVALID_INPUT, unlockedEmptyState, some vaultRecord0) ∧
    addContact zeroExternals unlockedEmptyState (some vaultRecord0) [1] "1" "t0" "Eve" "abcd" =
      (.error .INVALID_KEY, unlockedEmptyState, some vaultRecord0) ∧
    addContact zeroExternals bobState (some vaultRecord0) [1] "2" "t1" "bob" keyHexB =
      (.error .INVALID_INPUT, bobState, some vaultRecord0) :=
  ⟨(addContact_validation zeroExternals unlockedEmptyState (some vaultRecord0) [1] "1" "t0"
      " " keyHexA).1 rfl,
   (addContact_validation zeroExternals unlockedEmptyState (some vaultRecord0) [1] "1" "t0"
      "Eve" "abcd").2.1 (by decide) (by decide),
   (addContact_validation zeroExternals bobState (some vaultRecord0) [1] "2" "t1"
      "bob" keyHexB).2.2.1 (by decide) (by decide) (by decide) (by decide)⟩

/-! ### C9 — saveState frame conditions -/

/-- C9: `saveState` while Locked (no master key) fails with `ENCRYPTION_FAILED`
and leaves the persisted record untouched; while Unlocked it overwrites the
record with the freshly drawn 12-byte nonce and new ciphertext while the salt
field keeps its previous value. -/
theorem saveState_frame (E : Externals) (st : CryptoState) (old : EncryptedStorageState)
    (iv mk salt : Bytes) (hiv : iv.length = 12) :
    (st.masterKey = none →
      saveOp E st (some old) iv = (.error .ENCRYPTION_FAILED, some old)) ∧
    (st.masterKey = some mk → st.masterKeySalt = some salt →
      old.salt = arrayBufferToHex salt →
      saveOp E st (some old) iv =
        (.ok (), some
          { salt := old.salt, iv := arrayBufferToHex iv,
            data := arrayBufferToBase64 (E.aesGcmEncrypt mk iv (E.stringifyState
              { asconKey := st.asconKey.map arrayBufferToHex, contacts := st.contacts })) })) := by
  constructor
  · intro h
    simp [saveOp, saveState, h]
  · intro hmk hsalt hold
    simp only [saveOp, saveState, hmk, hsalt]
    rw [hold]

/-- Witness for C9: a locked state leaves the record alone; an unlocked state
rewrites nonce and ciphertext around the old salt. -/
theorem saveState_frame_witness :
    saveOp zeroExternals emptyState (some vaultRecord0) (List.replicate 12 0) =
      (.error .ENCRYPTION_FAILED, some vaultRecord0) ∧
    saveOp zeroExternals unlockedEmptyState
        (some { salt := "09", iv := "ff", data := "/w==" }) (List.replicate 12 0) =
      (.ok (), some
        { salt := ({ salt := "09", iv := "ff", data := "/w==" } : EncryptedStorageState).salt,
          iv := arrayBufferToHex (List.replicate 12 0),
          data := arrayBufferToBase64 (zeroExternals.aesGcmEncrypt [7] (List.replicate 12 0)
            (zeroExternals.stringifyState
              { asconKey := unlockedEmptyState.asconKey.map arrayBufferToHex,
                contacts := unlockedEmptyState.contacts })) }) :=
  ⟨(saveState_frame zeroExternals emptyState vaultRecord0 (List.replicate 12 0) [7] [9]
      (by decide)).1 rfl,
   (saveState_frame zeroExternals unlockedEmptyState
      { salt := "09", iv := "ff", data := "/w==" } (List.replicate 12 0) [7] [9]
      (by decide)).2 rfl rfl rfl⟩

/-! ### C7 — importContacts -/

/-- An unlocked vault already holding one contact named "Alice". -/
def importBaseState : CryptoState :=
  { asconKey := none,
    contacts := [{ id := "a1", name := "Alice", keyHex := keyHexA, added := "t0" }],
    masterKey := some [7], masterKeySalt := some [9] }

/-- Import candidate "Bob" with its own `added` timestamp. -/
def candBob : ImportCandidate :=
  { name := some "Bob", keyHex := some keyHexB, added := some "2020-01-01" }

/-- Import candidate duplicating "Alice" case-insensitively. -/
def candAliceDup : ImportCandidate :=
  { name := some "ALICE", keyHex := some "1111111111111111111111111111111111111111",
    added := none }

/-- Import candidate "Carol" without an `added` timestamp. -/
def candCarol : ImportCandidate :=
  { name := some "Carol", keyHex := some "2222222222222222222222222222222222222222",
    added := none }

/-- C7 (refuting the error clause of the claim): a JSON document that parses but
is not of the expected structure (its `contacts` field is not an array, e.g.
`{}`) is *not* rejected with `InvalidInput` — `importContacts` silently answers
`{imported: 0, duplicates: 0}` and changes nothing. -/
theorem importContacts_shape_mismatch_not_rejected :
    importContacts zeroExternals importBaseState (some vaultRecord0) [2] "99" "T"
        .noContactsArray = (.ok (0, 0), importBaseState, some vaultRecord0) ∧
    (Except.ok ((0, 0) : Nat × Nat) : Except CryptoErrorCode (Nat × Nat)) ≠
      .error .INVALID_INPUT := by
  exact ⟨rfl, fun hc => Except.noConfusion hc⟩

/-- C7 (amended): a JSON parse failure is rejected with `INVALID_INPUT`, while a
parsed document without a `contacts` array silently yields `{0, 0}`; a candidate
with truthy `name` and `keyHex` is counted as a duplicate exactly when the
current list holds its lower-cased name or its exact `keyHex`, and is otherwise
appended with the freshly generated id `now ++ toString imported`, preserving a
present nonempty `added` and stamping `nowIso` otherwise; candidates lacking
either field are skipped without being counted; on a 3-candidate document with
one duplicate name the result is `{imported: 2, duplicates: 1}`. -/
theorem importContacts_spec (E : Externals) (st : CryptoState)
    (storage : Option EncryptedStorageState) (iv : Bytes) (now nowIso n k : String)
    (c : ImportCandidate) (rest : List ImportCandidate) (cs : List Contact) (i d : Nat) :
    (importContacts E st storage iv now nowIso .parseError =
      (.error .INVALID_INPUT, st, storage)) ∧
    (importContacts E st storage iv now nowIso .noContactsArray = (.ok (0, 0), st, storage)) ∧
    (truthy c.name = some n → truthy c.keyHex = some k →
      ((cs.any (fun e => jsToLower e.name == jsToLower n) ||
          cs.any (fun e => e.keyHex == k)) = true →
        importLoop now nowIso cs i d (c :: rest) = importLoop now nowIso cs i (d + 1) rest) ∧
      ((cs.any (fun e => jsToLower e.name == jsToLower n) ||
          cs.any (fun e => e.keyHex == k)) = false →
        importLoop now nowIso cs i d (c :: rest) =
          importLoop now nowIso
            (cs ++ [{ id := now ++ toString i, name := n, keyHex := k,
                      added := (truthy c.added).getD nowIso }]) (i + 1) d rest)) ∧
    (truthy c.name = none ∨ truthy c.keyHex = none →
      importLoop now nowIso cs i d (c :: rest) = importLoop now nowIso cs i d rest) ∧
    (importContacts zeroExternals importBaseState (some vaultRecord0) [2] "99" "T"
        (.contactsArr [candBob, candAliceDup, candCarol]) =
      (.ok (2, 1),
       { importBaseState with contacts :=
          [{ id := "a1", name := "Alice", keyHex := keyHexA, added := "t0" },
           { id := "99" ++ toString 0, name := "Bob", keyHex := keyHexB, added := "2020-01-01" },
           { id := "99" ++ toString 1, name := "Carol",
             keyHex := "2222222222222222222222222222222222222222", added := "T" }] },
       some { salt := "09", iv := "02", data := "AA==" })) := by
  refine ⟨rfl, rfl, ?_, ?_, rfl⟩
  · intro hn hk
    constructor
    · intro hdup
      simp only [importLoop, hn, hk, hdup, if_true]
    · intro hdup
      simp only [importLoop, hn, hk, hdup, Bool.false_eq_true, if_false]
  · intro h
    rcases h with h | h
    · simp only [importLoop, h]
    · cases hcn : truthy c.name with
      | none => simp only [importLoop, hcn]
      | some n' => simp only [importLoop, hcn, h]

/-- Witness for C7's conditional clauses: the non-duplicate step applied to
candidate "Bob" over the empty list, and the skip step for a nameless candidate. -/
theorem importContacts_spec_witness :
    importLoop "99" "T" [] 0 0 [candBob] =
      importLoop "99" "T"
        [{ id := "99" ++ toString 0, name := "Bob", keyHex := keyHexB,
           added := "2020-01-01" }] 1 0 [] ∧
    importLoop "99" "T" [] 0 0 [{ name := none, keyHex := some keyHexA, added := none }] =
      importLoop "99" "T" [] 0 0 [] :=
  ⟨((importContacts_spec zeroExternals importBaseState (some vaultRecord0) [2] "99" "T"
      "Bob" keyHexB candBob [] [] 0 0).2.2.1 rfl rfl).2 rfl,
   (importContacts_spec zeroExternals importBaseState (some vaultRecord0) [2] "99" "T"
      "x" keyHexA { name := none, keyHex := some keyHexA, added := none }
      [] [] 0 0).2.2.2.1 (Or.inl rfl)⟩

/-! ### C10 — importKey performs no key validation -/

/-- An unlocked vault state holding a proper 20-byte personal key. -/
def healthyKeyState : CryptoState :=
  { asconKey := some (List.replicate 20 1), contacts := [],
    masterKey := some [7], masterKeySalt := some [9] }

/-- C10: `importKey` never validates the key's length — a JSON document whose
`ascon80pqKey` field is the 4-character hex string "abcd" is accepted: it
returns true and replaces the stored personal key with the 2-byte array
`[0xab, 0xcd]`. And `importKey` never throws: a parse failure, a missing or
falsy key field, or a hex failure inside (odd length, in which case
`hexToArrayBuffer` throws and the catch answers) all return false. -/
theorem importKey_no_validation (E : Externals) (st : CryptoState)
    (storage : Option EncryptedStorageState) (iv : Bytes) (s : String)
    (e : CryptoErrorCode) :
    (importKey zeroExternals healthyKeyState (some vaultRecord0) [2] (.keyField "abcd") =
        (true, { healthyKeyState with asconKey := some [171, 205] },
         some { salt := "09", iv := "02", data := "AA==" }) ∧
      ([171, 205] : Bytes).length ≠ 20) ∧
    (hexToArrayBuffer s = .error e →
      importKey E st storage iv (.keyField s) = (false, st, storage)) ∧
    (importKey E st storage iv .parseError = (false, st, storage)) ∧
    (importKey E st storage iv .noKeyField = (false, st, storage)) ∧
    (importKey E st storage iv (.keyField "") = (false, st, storage)) := by
  refine ⟨⟨rfl, by decide⟩, ?_, rfl, rfl, ?_⟩
  · intro h
    by_cases hs : s = ""
    · simp [importKey, hs]
    · simp only [importKey]
      rw [if_neg hs, h]
  · simp [importKey]

/-- Witness for C10's hex-failure clause: an odd-length hex key field. -/
theorem importKey_no_validation_witness :
    importKey zeroExternals emptyState none [] (.keyField "abc") = (false, emptyState, none) :=
  (importKey_no_validation zeroExternals emptyState none [] "abc" .INVALID_INPUT).2.1 rfl
